import Mathlib

/-!
# Verification of the beats config checks and GCP Pub/Sub input

Shallow embedding of `libbeat/processors/checks/checks.go`: the generic
configuration field checks (`MutuallyExclusiveRequiredFields`) and the
`gcppubsub` input (topic-ID derivation via SHA-256, event construction,
acknowledgment bridge, lifecycle `Run`/`Stop`, retry watchdog).

Byte sequences are `List Nat` with every element below 256; 32-bit machine
words are `Nat` reduced modulo `2 ^ 32` where Go wraps.
-/

namespace BeatsChecks

/-! ## 32-bit word helpers (Go `uint32` arithmetic, i.e. `crypto/sha256`) -/

/-- Reduce modulo `2 ^ 32`, matching Go `uint32` wraparound. -/
def w32 (n : Nat) : Nat := n % 4294967296

/-- Rotate a 32-bit word right by `n` bits (`bits.RotateLeft32(x, -n)`). -/
def rotr32 (n x : Nat) : Nat := ((x >>> n) ||| (x <<< (32 - n))) % 4294967296

/-- SHA-256 `Ch(x, y, z) = (x AND y) XOR (NOT x AND z)`. -/
def shaCh (x y z : Nat) : Nat := (x &&& y) ^^^ ((x ^^^ 4294967295) &&& z)

/-- SHA-256 `Maj(x, y, z) = (x AND y) XOR (x AND z) XOR (y AND z)`. -/
def shaMaj (x y z : Nat) : Nat := (x &&& y) ^^^ (x &&& z) ^^^ (y &&& z)

/-- SHA-256 big sigma-0: `ROTR 2 XOR ROTR 13 XOR ROTR 22`. -/
def bigSigma0 (x : Nat) : Nat := rotr32 2 x ^^^ rotr32 13 x ^^^ rotr32 22 x

/-- SHA-256 big sigma-1: `ROTR 6 XOR ROTR 11 XOR ROTR 25`. -/
def bigSigma1 (x : Nat) : Nat := rotr32 6 x ^^^ rotr32 11 x ^^^ rotr32 25 x

/-- SHA-256 small sigma-0: `ROTR 7 XOR ROTR 18 XOR SHR 3`. -/
def smallSigma0 (x : Nat) : Nat := rotr32 7 x ^^^ rotr32 18 x ^^^ (x >>> 3)

/-- SHA-256 small sigma-1: `ROTR 17 XOR ROTR 19 XOR SHR 10`. -/
def smallSigma1 (x : Nat) : Nat := rotr32 17 x ^^^ rotr32 19 x ^^^ (x >>> 10)

/-- The 64 SHA-256 round constants. -/
def shaK : List Nat :=
  [1116352408, 1899447441, 3049323471, 3921009573, 961987163, 1508970993,
   2453635748, 2870763221, 3624381080, 310598401, 607225278, 1426881987,
   1925078388, 2162078206, 2614888103, 3248222580, 3835390401, 4022224774,
   264347078, 604807628, 770255983, 1249150122, 1555081692, 1996064986,
   2554220882, 2821834349, 2952996808, 3210313671, 3336571891, 3584528711,
   113926993, 338241895, 666307205, 773529912, 1294757372, 1396182291,
   1695183700, 1986661051, 2177026350, 2456956037, 2730485921, 2820302411,
   3259730800, 3345764771, 3516065817, 3600352804, 4094571909, 275423344,
   430227734, 506948616, 659060556, 883997877, 958139571, 1322822218,
   1537002063, 1747873779, 1955562222, 2024104815, 2227730452, 2361852424,
   2428436474, 2756734187, 3204031479, 3329325298]

/-- The eight SHA-256 chaining words (`a` through `h`). -/
structure ShaState where
  a : Nat
  b : Nat
  c : Nat
  d : Nat
  e : Nat
  f : Nat
  g : Nat
  h : Nat
deriving Repr, DecidableEq

/-- The SHA-256 initial hash value. -/
def shaInit : ShaState :=
  ⟨1779033703, 3144134277, 1013904242, 2773480762,
   1359893119, 2600822924, 528734635, 1541459225⟩

/-- Big-endian 32-bit words from bytes, four bytes per word. -/
def bytesToWords : List Nat → List Nat
  | b3 :: b2 :: b1 :: b0 :: rest =>
      (b3 * 16777216 + b2 * 65536 + b1 * 256 + b0) :: bytesToWords rest
  | _ => []

/-- Append the next message-schedule word
`W[t] = sigma1(W[t-2]) + W[t-7] + sigma0(W[t-15]) + W[t-16] mod 2^32`. -/
def scheduleStep (ws : List Nat) : List Nat :=
  let n := ws.length
  ws ++ [w32 (smallSigma1 (ws.getD (n - 2) 0) + ws.getD (n - 7) 0 +
              smallSigma0 (ws.getD (n - 15) 0) + ws.getD (n - 16) 0)]

/-- Expand a 16-word block to the 64-word message schedule. -/
def messageSchedule (block : List Nat) : List Nat :=
  (List.range 48).foldl (fun ws _ => scheduleStep ws) block

/-- One SHA-256 compression round with constant `k` and schedule word `w`. -/
def shaRound (st : ShaState) (kw : Nat × Nat) : ShaState :=
  let t1 := w32 (st.h + bigSigma1 st.e + shaCh st.e st.f st.g + kw.1 + kw.2)
  let t2 := w32 (bigSigma0 st.a + shaMaj st.a st.b st.c)
  ⟨w32 (t1 + t2), st.a, st.b, st.c, w32 (st.d + t1), st.e, st.f, st.g⟩

/-- Process one 64-byte block: run 64 rounds, then add into the chaining state. -/
def processBlock (st : ShaState) (block : List Nat) : ShaState :=
  let ws := messageSchedule (bytesToWords block)
  let r := (shaK.zip ws).foldl shaRound st
  ⟨w32 (st.a + r.a), w32 (st.b + r.b), w32 (st.c + r.c), w32 (st.d + r.d),
   w32 (st.e + r.e), w32 (st.f + r.f), w32 (st.g + r.g), w32 (st.h + r.h)⟩

/-- Eight big-endian bytes of a 64-bit length value. -/
def len64Bytes (n : Nat) : List Nat :=
  [n >>> 56 % 256, n >>> 48 % 256, n >>> 40 % 256, n >>> 32 % 256,
   n >>> 24 % 256, n >>> 16 % 256, n >>> 8 % 256, n % 256]

/-- SHA-256 padding: `0x80`, zeros to 56 mod 64, then the bit length. -/
def shaPad (msg : List Nat) : List Nat :=
  msg ++ 128 :: List.replicate ((119 - msg.length % 64) % 64) 0 ++
    len64Bytes (8 * msg.length)

/-- Split into 64-byte chunks; fuel is the list length (enough since each
step drops 64 elements of a nonempty list). -/
def chunks64Go : Nat → List Nat → List (List Nat)
  | 0, _ => []
  | _ + 1, [] => []
  | fuel + 1, l => l.take 64 :: chunks64Go fuel (l.drop 64)

/-- Split a byte list into 64-byte chunks. -/
def chunks64 (l : List Nat) : List (List Nat) := chunks64Go l.length l

/-- Big-endian bytes of one 32-bit word (Go writes `byte(w >> 24)`, ...). -/
def wordBytes (w : Nat) : List Nat :=
  [w >>> 24 % 256, w >>> 16 % 256, w >>> 8 % 256, w % 256]

/-- The 32 digest bytes of a final chaining state. -/
def digestBytes (st : ShaState) : List Nat :=
  wordBytes st.a ++ wordBytes st.b ++ wordBytes st.c ++ wordBytes st.d ++
  wordBytes st.e ++ wordBytes st.f ++ wordBytes st.g ++ wordBytes st.h

/-- SHA-256 of a byte sequence: `crypto/sha256` hashes the stream of all
bytes written, here the concatenation. -/
def sha256 (msg : List Nat) : List Nat :=
  digestBytes ((chunks64 (shaPad msg)).foldl processBlock shaInit)

/-! ## Hex encoding (`encoding/hex`) -/

/-- One lowercase hex digit character for a nibble (`hextable` lookup). -/
def hexDigit (n : Nat) : Char :=
  if n < 10 then Char.ofNat (48 + n) else Char.ofNat (87 + n)

/-- Lowercase hex characters of a byte list, high nibble first
(`hex.EncodeToString` writes `hextable[v>>4]` then `hextable[v&0x0f]`). -/
def hexEncodeChars : List Nat → List Char
  | [] => []
  | b :: bs => hexDigit (b >>> 4) :: hexDigit (b &&& 15) :: hexEncodeChars bs

/-- `makeTopicID`: hex digest of SHA-256 over project bytes then topic bytes,
truncated to the first 10 characters (`prefix[:10]`; hex output is ASCII so
Go byte slicing is character slicing). -/
def makeTopicID (project topic : List Nat) : String :=
  String.mk ((hexEncodeChars (sha256 (project ++ topic))).take 10)

/-! ## Go errors, wrapping and `errors.Is(err, context.Canceled)` -/

/-- Go error values as produced by this file: `context.Canceled`, a plain
message (`errors.New` / non-wrapping `fmt.Errorf`), or a `%w` wrap. -/
inductive GoErr
  | canceled
  | msg (s : String)
  | wrap (s : String) (inner : GoErr)
deriving Repr, DecidableEq

/-- `errors.Is(e, context.Canceled)`: true when the error is the
cancellation sentinel or wraps it. -/
def isCanceled : GoErr → Bool
  | .canceled => true
  | .msg _ => false
  | .wrap _ inner => isCanceled inner

/-! ## Status reporter states (`management/status`) -/

/-- Lifecycle states reported via `UpdateStatus`. -/
inductive WStatus
  | starting
  | configuring
  | running
  | degraded
  | stopping
  | stopped
  | failed
deriving Repr, DecidableEq

/-! ## Time (`time.Time` as an instant plus a location) -/

/-- A Go `time.Time`: an instant in nanoseconds plus a location. `UTC()`
changes only the location. -/
structure GoTime where
  nanos : Int
  isUTC : Bool
deriving Repr, DecidableEq

/-- `t.UTC()`: same instant, location set to UTC. -/
def GoTime.utc (t : GoTime) : GoTime := { t with isUTC := true }

/-! ## Pub/Sub messages and beat events -/

/-- A `pubsub.Message`: identifier, payload bytes, attributes, publish time. -/
structure PubsubMessage where
  ID : String
  Data : List Nat
  Attributes : List (String × String)
  PublishTime : GoTime
deriving Repr, DecidableEq

/-- The parts of a `beat.Event` that `makeEvent` populates. The `message`
field is Go `string(msg.Data)`, i.e. the payload bytes read as text; it is
kept here as those bytes. -/
structure BeatEvent where
  Timestamp : GoTime
  eventIdField : String
  eventCreated : GoTime
  message : List Nat
  labels : Option (List (String × String))
  private1 : PubsubMessage
  metaId : String
deriving Repr, DecidableEq

/-- `makeEvent`: build the event for one message. `now` is the value of
`time.Now()` at the call. -/
def makeEvent (topicID : String) (now : GoTime) (msg : PubsubMessage) : BeatEvent :=
  let id := topicID ++ "-" ++ msg.ID
  { Timestamp := msg.PublishTime.utc
    eventIdField := id
    eventCreated := now.utc
    message := msg.Data
    labels := if msg.Attributes.length > 0 then some msg.Attributes else none
    private1 := msg
    metaId := id }

/-! ## Metrics and the acknowledgment bridge -/

/-- The input metrics counters touched by the ack bridge and pump. -/
structure InputMetrics where
  ackedMessageCount : Nat
  failedAckedMessageCount : Nat
  nackedMessageCount : Nat
  bytesProcessedTotal : Nat
  processingTimes : List Int
deriving Repr, DecidableEq

/-- Fresh metrics as registered by `newInputMetrics`. -/
def newMetrics : InputMetrics := ⟨0, 0, 0, 0, []⟩

/-- An ack or nack issued against the external source for a message. -/
inductive AckAction
  | ack (msgId : String)
  | nack (msgId : String)
deriving Repr, DecidableEq

/-- State threaded through the ack-bridge callback and the receive handler:
metrics, the ack/nack calls issued so far, and log counters. -/
structure BridgeState where
  metrics : InputMetrics
  actions : List AckAction
  errorLogs : Nat
deriving Repr, DecidableEq

/-- One iteration of the `EventPrivateReporter` loop body: `priv` is
`some msg` when the type assertion `priv.(*pubsub.Message)` succeeds.
`now` is the wall clock used by `time.Since`. -/
def ackPrivate (now : GoTime) (s : BridgeState) (priv : Option PubsubMessage) :
    BridgeState :=
  match priv with
  | some msg =>
      { s with
        actions := s.actions ++ [.ack msg.ID]
        metrics :=
          { s.metrics with
            ackedMessageCount := s.metrics.ackedMessageCount + 1
            bytesProcessedTotal := s.metrics.bytesProcessedTotal + msg.Data.length
            processingTimes :=
              s.metrics.processingTimes ++ [now.nanos - msg.PublishTime.nanos] } }
  | none =>
      { s with
        metrics :=
          { s.metrics with
            failedAckedMessageCount := s.metrics.failedAckedMessageCount + 1 }
        errorLogs := s.errorLogs + 1 }

/-- The whole reporter callback: fold the body over the `privates` slice. -/
def ackReporter (now : GoTime) (s : BridgeState) (privates : List (Option PubsubMessage)) :
    BridgeState :=
  privates.foldl (ackPrivate now) s

/-! ## The receive handler (message pump body inside `run`) -/

/-- State visible to one receive-callback invocation: bridge state plus the
two cancellation tokens (per-run `ctx` from `context.WithCancel(workerCtx)`,
and the outer `workerCtx`) and the debug-log count. -/
structure ReceiveState where
  bridge : BridgeState
  runCtxCancelled : Bool
  workerCtxCancelled : Bool
  debugLogs : Nat
deriving Repr, DecidableEq

/-- The `sub.Receive` callback body: deliver the event; when the outlet
returns false, nack, bump the nack counter, log, and cancel the per-run
context. `accepted` is the value `in.outlet.OnEvent(...)` returned. -/
def onMessageHandler (accepted : Bool) (msg : PubsubMessage) (s : ReceiveState) :
    ReceiveState :=
  if accepted then s
  else
    { s with
      bridge :=
        { s.bridge with
          actions := s.bridge.actions ++ [.nack msg.ID]
          metrics :=
            { s.bridge.metrics with
              nackedMessageCount := s.bridge.metrics.nackedMessageCount + 1 } }
      debugLogs := s.debugLogs + 1
      runCtxCancelled := true }

/-! ## Subscription manager (`getOrCreateSubscription`) -/

/-- Outcome of resolving a subscription handle. -/
inductive SubHandle
  | existing (name : String)
  | created (name : String) (topic : String)
deriving Repr, DecidableEq

/-- A model of the pub/sub client for subscription resolution: which
subscriptions exist, scripted failures of the two RPCs, and the
subscriptions created so far by this call. -/
structure ClientState where
  existing : List String
  existsErr : Option GoErr
  createErr : Option GoErr
  createdSubs : List (String × String)
deriving Repr, DecidableEq

/-- `sub.Exists(ctx)`. -/
def subExists (c : ClientState) (name : String) : Except GoErr Bool :=
  match c.existsErr with
  | some e => .error e
  | none => .ok (name ∈ c.existing)

/-- `client.CreateSubscription(ctx, name, {Topic: topic})`. -/
def createSubscription (c : ClientState) (name topic : String) :
    Except GoErr ClientState :=
  match c.createErr with
  | some e => .error e
  | none => .ok { c with createdSubs := c.createdSubs ++ [(name, topic)] }

/-- `getOrCreateSubscription`: check existence, return the handle if
present; otherwise create when permitted, else fail. The final client
state is returned alongside, to observe which paths create anything.
The unavailable-error text is the source message with the single quotes
around subscription.create dropped. -/
def getOrCreateSubscription (c : ClientState) (name topic : String)
    (create : Bool) : Except GoErr SubHandle × ClientState :=
  match subExists c name with
  | .error e => (.error (.wrap "failed to check if subscription exists" e), c)
  | .ok true => (.ok (.existing name), c)
  | .ok false =>
      if create then
        match createSubscription c name topic with
        | .error e => (.error (.wrap "failed to create subscription" e), c)
        | .ok c2 => (.ok (.created name topic), c2)
      else
        (.error (.msg "no subscription exists and subscription.create is not enabled"), c)

/-- The wrap `run` applies before propagating a subscription error
(`fmt.Errorf("failed to subscribe to pub/sub topic: %w", err)`). -/
def runSubscribeWrap (e : GoErr) : GoErr :=
  .wrap "failed to subscribe to pub/sub topic" e

/-! ## Retry watchdog (the loop body in `Run`) -/

/-- A log line emitted by the watchdog. -/
inductive LogEntry
  | warnRestart (e : GoErr)
  | errFailed (e : GoErr)
deriving Repr, DecidableEq

/-- What the watchdog does after one attempt returns. -/
inductive LoopOutcome
  | nextAttempt (logs : List LogEntry)
  | exitLoop (logs : List LogEntry)
deriving Repr, DecidableEq

/-- The watchdog decision after `in.run()` returns `runErr`, given whether
the outer `workerCtx` is cancelled at that point: a non-nil error with the
outer context alive is logged at warning level and retried; with the outer
context cancelled, a cancellation error exits silently and any other error
is logged at error level before exit. A nil error just re-checks the loop
condition. -/
def watchdogAfterAttempt (workerCtxCancelled : Bool) (runErr : Option GoErr) :
    LoopOutcome :=
  match runErr with
  | some e =>
      if !workerCtxCancelled then .nextAttempt [.warnRestart e]
      else if !(isCanceled e) then .exitLoop [.errFailed e]
      else .exitLoop []
  | none =>
      if workerCtxCancelled then .exitLoop [] else .nextAttempt []

/-! ## Rate limiter (`rate.NewLimiter(rate.Every(retryInterval), 1)`) -/

/-- `retryInterval = 30 * time.Second`, in nanoseconds. -/
def retryInterval : Nat := 30 * 1000000000

/-- A token-bucket limiter with burst 1 at one token per `retryInterval`:
after a grant the next token is ready `retryInterval` later. `nextFree = 0`
initially (full bucket, first wait returns at once). -/
structure Limiter where
  nextFree : Nat
deriving Repr, DecidableEq

/-- `rt.Wait` called at time `now`: returns the grant time (the moment the
attempt starts) and the drained limiter. -/
def limiterWait (l : Limiter) (now : Nat) : Nat × Limiter :=
  let grant := max now l.nextFree
  (grant, ⟨grant + retryInterval⟩)

/-! ## Lifecycle: `Run` (sync.Once) and metrics creation -/

/-- The lifecycle fields of `pubsubInput` that `Run` touches: the
`sync.Once` flag, the metrics reference (nil until `Run`), and counters of
`newInputMetrics` calls and worker goroutines started. -/
structure InputLifecycle where
  workerOnceDone : Bool
  metrics : Option InputMetrics
  metricsCreatedCount : Nat
  workersStarted : Nat
deriving Repr, DecidableEq

/-- The input as `NewInput` leaves it: worker not started, metrics nil. -/
def newInputState : InputLifecycle :=
  { workerOnceDone := false
    metrics := none
    metricsCreatedCount := 0
    workersStarted := 0 }

/-- `Run()`: the body runs only when the `sync.Once` has not fired; it
creates the metrics and starts the worker goroutine, then returns. -/
def runInput (s : InputLifecycle) : InputLifecycle :=
  if s.workerOnceDone then s
  else
    { workerOnceDone := true
      metrics := some newMetrics
      metricsCreatedCount := s.metricsCreatedCount + 1
      workersStarted := s.workersStarted + 1 }

/-- The reference on which `Stop` invokes `Close` (`in.metrics.Close()`),
unconditionally. -/
def stopCloseTarget (s : InputLifecycle) : Option InputMetrics := s.metrics

/-! ## Stop/worker interleaving machine

`Stop` runs `workerCancel(); workerWg.Wait(); metrics.Close()` while the
worker goroutine loops `for workerCtx.Err() == nil { ... in.run() ... }` and
on exit runs the deferred `workerCancel(); workerWg.Done(); log;
UpdateStatus(Stopped)`. The two threads are interleaved by an explicit
schedule; each instruction is one atomic step. -/

/-- One deferred instruction of the worker's exit sequence, in source
order: cancel, `wg.Done()`, then the Stopped status update (the log line is
folded into the status step). -/
inductive DeferInstr
  | dCancel
  | dDone
  | dSetStopped
deriving Repr, DecidableEq

/-- Where the worker goroutine is: still in the watchdog loop (with the
deliveries each future attempt would make), running its deferred exit
sequence, or gone. -/
inductive WorkerPhase
  | looping (attempts : List Nat)
  | deferring (rest : List DeferInstr)
  | exited
deriving Repr, DecidableEq

/-- Joint state of the worker goroutine and one `Stop` caller. -/
structure LifeState where
  cancelled : Bool
  wgCount : Nat
  statusStopped : Bool
  metricsClosed : Bool
  deliveries : Nat
  worker : WorkerPhase
  stopPC : Nat
deriving Repr, DecidableEq

/-- One step of the worker goroutine. In the loop it first re-checks
`workerCtx.Err() == nil`; once cancelled it falls through to the deferred
sequence. An attempt is atomic here: its deliveries all happen before the
loop re-check that follows it. With no scripted attempt left and no
cancellation, the worker is blocked (in `rt.Wait` or `sub.Receive`). -/
def workerStep (s : LifeState) : LifeState :=
  match s.worker with
  | .looping atts =>
      if s.cancelled then
        { s with worker := .deferring [.dCancel, .dDone, .dSetStopped] }
      else
        match atts with
        | [] => s
        | a :: rest => { s with deliveries := s.deliveries + a, worker := .looping rest }
  | .deferring [] => { s with worker := .exited }
  | .deferring (i :: rest) =>
      match i with
      | .dCancel => { s with cancelled := true, worker := .deferring rest }
      | .dDone => { s with wgCount := s.wgCount - 1, worker := .deferring rest }
      | .dSetStopped => { s with statusStopped := true, worker := .deferring rest }
  | .exited => s

/-- One step of the `Stop` caller: `workerCancel()`, then `wg.Wait()`
(blocks while the count is positive), then `metrics.Close()`; program
counter 3 means `Stop` has returned. -/
def stopStep (s : LifeState) : LifeState :=
  match s.stopPC with
  | 0 => { s with cancelled := true, stopPC := 1 }
  | 1 => if s.wgCount = 0 then { s with stopPC := 2 } else s
  | 2 => { s with metricsClosed := true, stopPC := 3 }
  | _ => s

/-- One scheduled step: `true` runs the worker, `false` runs `Stop`. -/
def sysStep (s : LifeState) (who : Bool) : LifeState :=
  if who then workerStep s else stopStep s

/-- Run a whole schedule. -/
def sysRun (s : LifeState) (sched : List Bool) : LifeState :=
  sched.foldl sysStep s

/-- Initial joint state after `Run` added the worker to the wait group:
worker in its loop with the scripted attempts, `Stop` not yet called. -/
def lifeInit (atts : List Nat) : LifeState :=
  { cancelled := false
    wgCount := 1
    statusStopped := false
    metricsClosed := false
    deliveries := 0
    worker := .looping atts
    stopPC := 0 }

/-- A later `Stop()` call on a completed state: `workerCancel()` again (a
no-op re-cancel), `wg.Wait()` returns at once, `metrics.Close()` again. -/
def stopAgain (s : LifeState) : LifeState :=
  { s with cancelled := true, metricsClosed := true }

/-! ## `MutuallyExclusiveRequiredFields` (checks.go) -/

/-- Errors produced by the field checks, keeping the names the `fmt.Errorf`
messages interpolate. -/
inductive CheckErr
  | mutuallyExclusive (a b : String)
  | missingOption (fields : List String)
deriving Repr, DecidableEq

/-- The inner loop over the candidate `fields` for one config field
`field`, carrying Go's `foundField` (empty string means unset). -/
def mefInner (field foundField : String) : List String → Except CheckErr String
  | [] => .ok foundField
  | f :: fs =>
      if field = f then
        if foundField.length = 0 then mefInner field field fs
        else .error (.mutuallyExclusive foundField field)
      else mefInner field foundField fs

/-- The outer loop over `cfg.GetFields()`. -/
def mefOuter (fields : List String) (foundField : String) :
    List String → Except CheckErr String
  | [] => .ok foundField
  | c :: cs =>
      match mefInner c foundField fields with
      | .error e => .error e
      | .ok ff => mefOuter fields ff cs

/-- `MutuallyExclusiveRequiredFields(fields...)` applied to a config whose
`GetFields()` returns `cfgFields`: `none` is the nil (success) return. -/
def mutuallyExclusiveRequiredFields (fields cfgFields : List String) :
    Option CheckErr :=
  match mefOuter fields "" cfgFields with
  | .error e => some e
  | .ok ff => if ff.length = 0 then some (.missingOption fields) else none

/-! ## Helper lemmas: hash digest shape -/

/-- A character is a lowercase hex digit: one of 0-9 or a-f. -/
def isHexChar (c : Char) : Bool :=
  (48 ≤ c.toNat && c.toNat ≤ 57) || (97 ≤ c.toNat && c.toNat ≤ 102)

/-- Each big-endian byte of a word is below 256. -/
lemma wordBytes_lt (w : Nat) : ∀ b ∈ wordBytes w, b < 256 := by
  simp only [wordBytes, List.mem_cons, List.not_mem_nil, or_false]
  rintro b (rfl | rfl | rfl | rfl) <;> exact Nat.mod_lt _ (by norm_num)

/-- The digest always has exactly 32 bytes. -/
lemma digestBytes_length (st : ShaState) : (digestBytes st).length = 32 := by
  simp [digestBytes, wordBytes]

/-- Bound transfer across a `wordBytes` prefix. -/
lemma wordBytes_append_lt (w : Nat) (l : List Nat) (hl : ∀ b ∈ l, b < 256) :
    ∀ b ∈ wordBytes w ++ l, b < 256 := by
  intro b hb
  rcases List.mem_append.mp hb with h1 | h1
  · exact wordBytes_lt w b h1
  · exact hl b h1

/-- Every digest byte is below 256. -/
lemma digestBytes_lt (st : ShaState) : ∀ b ∈ digestBytes st, b < 256 := by
  simp only [digestBytes, List.append_assoc]
  exact wordBytes_append_lt _ _ (wordBytes_append_lt _ _ (wordBytes_append_lt _ _
    (wordBytes_append_lt _ _ (wordBytes_append_lt _ _ (wordBytes_append_lt _ _
      (wordBytes_append_lt _ _ (wordBytes_lt _)))))))

/-- SHA-256 output length is 32 bytes. -/
lemma sha256_length (msg : List Nat) : (sha256 msg).length = 32 :=
  digestBytes_length _

/-- Every SHA-256 output byte is below 256. -/
lemma sha256_lt (msg : List Nat) : ∀ b ∈ sha256 msg, b < 256 :=
  digestBytes_lt _

/-- A nibble renders as a hex digit character. -/
lemma hexDigit_isHexDigit : ∀ n < 16, isHexChar (hexDigit n) = true := by decide

/-- Hex encoding doubles the length. -/
lemma hexEncodeChars_length (l : List Nat) :
    (hexEncodeChars l).length = 2 * l.length := by
  induction l with
  | nil => rfl
  | cons b bs ih => simp [hexEncodeChars, ih]; ring

/-- Every character hex encoding emits for in-range bytes is a hex digit. -/
lemma hexEncodeChars_isHexDigit (l : List Nat) (hl : ∀ b ∈ l, b < 256) :
    ∀ c ∈ hexEncodeChars l, isHexChar c = true := by
  induction l with
  | nil => simp [hexEncodeChars]
  | cons b bs ih =>
      intro c hc
      have hb : b < 256 := hl b (List.mem_cons_self b bs)
      simp only [hexEncodeChars, List.mem_cons] at hc
      rcases hc with rfl | rfl | hc
      · refine hexDigit_isHexDigit _ ?_
        have : b >>> 4 = b / 16 := by
          simp [Nat.shiftRight_eq_div_pow]
        omega
      · refine hexDigit_isHexDigit _ ?_
        have : b &&& 15 ≤ 15 := Nat.and_le_right
        omega
      · exact ih (fun x hx => hl x (List.mem_cons_of_mem _ hx)) c hc

/-- The topic-ID string is exactly 10 characters long. -/
lemma makeTopicID_length (project topic : List Nat) :
    (makeTopicID project topic).length = 10 := by
  have h64 : (hexEncodeChars (sha256 (project ++ topic))).length = 64 := by
    rw [hexEncodeChars_length, sha256_length]
  simp [makeTopicID, String.length, h64]

/-- Every character of the topic ID is a lowercase-hex digit. -/
lemma makeTopicID_isHexDigit (project topic : List Nat) :
    ∀ c ∈ (makeTopicID project topic).data, isHexChar c = true := by
  intro c hc
  simp only [makeTopicID] at hc
  have hc2 : c ∈ hexEncodeChars (sha256 (project ++ topic)) :=
    List.mem_of_mem_take hc
  exact hexEncodeChars_isHexDigit _ (sha256_lt _) c hc2

/-- Sanity anchor for the hash embedding: the FIPS 180-4 test vector for
the three bytes of ASCII abc. -/
theorem sha256_test_vector_abc :
    sha256 [97, 98, 99] =
      [186, 120, 22, 191, 143, 1, 207, 234, 65, 65, 64, 222,
       93, 174, 34, 35, 176, 3, 97, 163, 150, 23, 122, 156,
       180, 16, 255, 97, 242, 0, 21, 173] := by decide

/-! ## Claim theorems -/

/-- C1: the Event built from a received Message gets identifier
makeTopicID(project, topic) plus a dash plus the message ID, where
makeTopicID is the first 10 hex characters of the SHA-256 digest of the
concatenation of project and topic bytes; the derivation is deterministic
in the (project, topic, message-id) triple, and the prefix is always
exactly 10 lowercase-hex characters. -/
theorem claim_C1_event_id (project topic : List Nat) (now : GoTime)
    (msg : PubsubMessage) :
    (makeEvent (makeTopicID project topic) now msg).eventIdField
        = makeTopicID project topic ++ "-" ++ msg.ID
    ∧ (makeEvent (makeTopicID project topic) now msg).metaId
        = makeTopicID project topic ++ "-" ++ msg.ID
    ∧ makeTopicID project topic
        = String.mk ((hexEncodeChars (sha256 (project ++ topic))).take 10)
    ∧ (makeTopicID project topic).length = 10
    ∧ (∀ c ∈ (makeTopicID project topic).data, isHexChar c = true)
    ∧ (∀ (p2 t2 : List Nat) (now2 : GoTime) (msg2 : PubsubMessage),
        project = p2 → topic = t2 → msg.ID = msg2.ID →
        (makeEvent (makeTopicID p2 t2) now2 msg2).eventIdField
          = (makeEvent (makeTopicID project topic) now msg).eventIdField) := by
  refine ⟨rfl, rfl, rfl, makeTopicID_length project topic,
    makeTopicID_isHexDigit project topic, ?_⟩
  intro p2 t2 now2 msg2 hp ht hid
  subst hp; subst ht
  simp [makeEvent, hid]

/-- C1 witness: the theorem at a concrete (project, topic, message). -/
theorem claim_C1_event_id_witness :
    (makeEvent (makeTopicID [1, 2] [3]) ⟨5, false⟩
        ⟨"m1", [7], [], ⟨3, false⟩⟩).eventIdField
      = makeTopicID [1, 2] [3] ++ "-" ++ "m1"
    ∧ (makeTopicID [1, 2] [3]).length = 10
    ∧ (makeEvent (makeTopicID [1, 2] [3]) ⟨9, true⟩
        ⟨"m1", [8, 8], [("a", "b")], ⟨4, false⟩⟩).eventIdField
      = (makeEvent (makeTopicID [1, 2] [3]) ⟨5, false⟩
          ⟨"m1", [7], [], ⟨3, false⟩⟩).eventIdField :=
  ⟨(claim_C1_event_id [1, 2] [3] ⟨5, false⟩ ⟨"m1", [7], [], ⟨3, false⟩⟩).1,
   (claim_C1_event_id [1, 2] [3] ⟨5, false⟩ ⟨"m1", [7], [], ⟨3, false⟩⟩).2.2.2.1,
   (claim_C1_event_id [1, 2] [3] ⟨5, false⟩
      ⟨"m1", [7], [], ⟨3, false⟩⟩).2.2.2.2.2 [1, 2] [3] ⟨9, true⟩
      ⟨"m1", [8, 8], [("a", "b")], ⟨4, false⟩⟩ rfl rfl rfl⟩

/-- C8: the constructed Event has the Message publish instant normalized
to UTC as its timestamp, event.created equal to the current wall clock
normalized to UTC, the message field equal to the payload bytes, and a
labels field equal to the attributes exactly when they are non-empty. -/
theorem claim_C8_event_fields (topicID : String) (now : GoTime)
    (msg : PubsubMessage) :
    (makeEvent topicID now msg).Timestamp.nanos = msg.PublishTime.nanos
    ∧ (makeEvent topicID now msg).Timestamp.isUTC = true
    ∧ (makeEvent topicID now msg).eventCreated.nanos = now.nanos
    ∧ (makeEvent topicID now msg).eventCreated.isUTC = true
    ∧ (makeEvent topicID now msg).message = msg.Data
    ∧ (msg.Attributes ≠ [] →
        (makeEvent topicID now msg).labels = some msg.Attributes)
    ∧ (msg.Attributes = [] → (makeEvent topicID now msg).labels = none) := by
  refine ⟨rfl, rfl, rfl, rfl, rfl, ?_, ?_⟩
  · intro h
    have hl : 0 < msg.Attributes.length := List.length_pos.mpr h
    simp [makeEvent, hl]
  · intro h
    simp [makeEvent, h]

/-- C8 witness: the spec scenario, one message with attributes k maps to v
yields labels equal to those attributes; an attribute-free message yields
no labels field. -/
theorem claim_C8_event_fields_witness :
    (makeEvent "t" ⟨1, false⟩ ⟨"m", [1], [("k", "v")], ⟨2, false⟩⟩).labels
      = some [("k", "v")]
    ∧ (makeEvent "t" ⟨1, false⟩ ⟨"m", [1], [], ⟨2, false⟩⟩).labels = none :=
  ⟨(claim_C8_event_fields "t" ⟨1, false⟩
      ⟨"m", [1], [("k", "v")], ⟨2, false⟩⟩).2.2.2.2.2.1 (by decide),
   (claim_C8_event_fields "t" ⟨1, false⟩
      ⟨"m", [1], [], ⟨2, false⟩⟩).2.2.2.2.2.2 rfl⟩

/-- C7: on a successful delivery outcome whose back-reference is the
Message, the bridge acks it exactly once, bumps the acked counter by one,
adds the payload length to bytes processed, and records the
publish-to-ack latency; on a failed outcome it bumps the failed-ack
counter by one and logs, issuing neither ack nor nack; a sink-rejected
event never touches the acked counter. -/
theorem claim_C7_ack_bridge (now : GoTime) (s : BridgeState)
    (msg : PubsubMessage) (rs : ReceiveState) (m2 : PubsubMessage) :
    (ackPrivate now s (some msg)).actions = s.actions ++ [.ack msg.ID]
    ∧ (ackPrivate now s (some msg)).metrics.ackedMessageCount
        = s.metrics.ackedMessageCount + 1
    ∧ (ackPrivate now s (some msg)).metrics.bytesProcessedTotal
        = s.metrics.bytesProcessedTotal + msg.Data.length
    ∧ (ackPrivate now s (some msg)).metrics.processingTimes
        = s.metrics.processingTimes ++ [now.nanos - msg.PublishTime.nanos]
    ∧ (ackPrivate now s (some msg)).metrics.failedAckedMessageCount
        = s.metrics.failedAckedMessageCount
    ∧ (ackPrivate now s (some msg)).metrics.nackedMessageCount
        = s.metrics.nackedMessageCount
    ∧ (ackPrivate now s none).metrics.failedAckedMessageCount
        = s.metrics.failedAckedMessageCount + 1
    ∧ (ackPrivate now s none).errorLogs = s.errorLogs + 1
    ∧ (ackPrivate now s none).actions = s.actions
    ∧ (ackPrivate now s none).metrics.ackedMessageCount
        = s.metrics.ackedMessageCount
    ∧ (ackPrivate now s none).metrics.nackedMessageCount
        = s.metrics.nackedMessageCount
    ∧ (onMessageHandler false m2 rs).bridge.metrics.ackedMessageCount
        = rs.bridge.metrics.ackedMessageCount := by
  refine ⟨rfl, rfl, rfl, rfl, rfl, rfl, rfl, rfl, rfl, rfl, rfl, ?_⟩
  simp [onMessageHandler]

/-- C2: when the sink rejects a delivered Event, the handler nacks the
originating Message exactly once, bumps the nacked counter by one,
cancels only the per-run context while the outer worker context is
untouched, and the rate limiter schedules the next attempt start no
sooner than retryInterval after the previous attempt start. -/
theorem claim_C2_backpressure (msg : PubsubMessage) (s : ReceiveState)
    (l : Limiter) (t1 t2 : Nat) :
    (onMessageHandler false msg s).bridge.actions
        = s.bridge.actions ++ [.nack msg.ID]
    ∧ (onMessageHandler false msg s).bridge.metrics.nackedMessageCount
        = s.bridge.metrics.nackedMessageCount + 1
    ∧ (onMessageHandler false msg s).runCtxCancelled = true
    ∧ (onMessageHandler false msg s).workerCtxCancelled = s.workerCtxCancelled
    ∧ (limiterWait (limiterWait l t1).2 t2).1
        ≥ (limiterWait l t1).1 + retryInterval := by
  refine ⟨?_, ?_, ?_, ?_, ?_⟩ <;> simp [onMessageHandler, limiterWait]

/-- C6: the watchdog classifies a failed attempt by the outer token
alone: outer token alive means the error is logged as a restart warning
and another attempt follows; outer token cancelled means a cancellation
error exits silently while any other error is logged as a final failure
before exit. -/
theorem claim_C6_error_classification (e : GoErr) :
    watchdogAfterAttempt false (some e) = .nextAttempt [.warnRestart e]
    ∧ (isCanceled e = true → watchdogAfterAttempt true (some e) = .exitLoop [])
    ∧ (isCanceled e = false →
        watchdogAfterAttempt true (some e) = .exitLoop [.errFailed e]) := by
  refine ⟨rfl, ?_, ?_⟩ <;> intro h <;> simp [watchdogAfterAttempt, h]

/-- C6 witness: the cancellation sentinel exits silently, a wrapped
cancellation exits silently, and a plain error is logged as final. -/
theorem claim_C6_error_classification_witness :
    watchdogAfterAttempt true (some .canceled) = .exitLoop []
    ∧ watchdogAfterAttempt true (some (.wrap "ctx" .canceled)) = .exitLoop []
    ∧ watchdogAfterAttempt true (some (.msg "boom"))
        = .exitLoop [.errFailed (.msg "boom")]
    ∧ watchdogAfterAttempt false (some (.msg "boom"))
        = .nextAttempt [.warnRestart (.msg "boom")] :=
  ⟨(claim_C6_error_classification .canceled).2.1 rfl,
   (claim_C6_error_classification (.wrap "ctx" .canceled)).2.1 rfl,
   (claim_C6_error_classification (.msg "boom")).2.2 rfl,
   (claim_C6_error_classification (.msg "boom")).1⟩

/-- C5: getOrCreateSubscription returns the existing subscription when
present; creates it bound to the configured topic when absent and
creation is permitted; and when absent with creation not permitted it
returns the subscription-unavailable error without creating anything,
an error the watchdog still classifies as retryable. -/
theorem claim_C5_get_or_create (c : ClientState) (name topic : String)
    (create : Bool) :
    (c.existsErr = none → name ∈ c.existing →
      getOrCreateSubscription c name topic create = (.ok (.existing name), c))
    ∧ (c.existsErr = none → c.createErr = none → name ∉ c.existing →
        getOrCreateSubscription c name topic true =
          (.ok (.created name topic),
           { c with createdSubs := c.createdSubs ++ [(name, topic)] }))
    ∧ (c.existsErr = none → name ∉ c.existing →
        getOrCreateSubscription c name topic false =
          (.error
            (.msg "no subscription exists and subscription.create is not enabled"),
           c))
    ∧ watchdogAfterAttempt false
        (some (runSubscribeWrap
          (.msg "no subscription exists and subscription.create is not enabled")))
      = .nextAttempt [.warnRestart (runSubscribeWrap
          (.msg "no subscription exists and subscription.create is not enabled"))] := by
  refine ⟨?_, ?_, ?_, rfl⟩
  · intro he hm
    simp [getOrCreateSubscription, subExists, he, hm]
  · intro he hc hm
    simp [getOrCreateSubscription, subExists, createSubscription, he, hc, hm]
  · intro he hm
    simp [getOrCreateSubscription, subExists, he, hm]

/-- C5 witness: the three policy branches at concrete client states. -/
theorem claim_C5_get_or_create_witness :
    getOrCreateSubscription ⟨["s"], none, none, []⟩ "s" "t" false
      = (.ok (.existing "s"), ⟨["s"], none, none, []⟩)
    ∧ getOrCreateSubscription ⟨[], none, none, []⟩ "s" "t" true
      = (.ok (.created "s" "t"), ⟨[], none, none, [("s", "t")]⟩)
    ∧ getOrCreateSubscription ⟨[], none, none, []⟩ "s" "t" false
      = (.error
          (.msg "no subscription exists and subscription.create is not enabled"),
         ⟨[], none, none, []⟩) :=
  ⟨(claim_C5_get_or_create ⟨["s"], none, none, []⟩ "s" "t" false).1 rfl
      (by decide),
   (claim_C5_get_or_create ⟨[], none, none, []⟩ "s" "t" true).2.1 rfl rfl
      (by decide),
   (claim_C5_get_or_create ⟨[], none, none, []⟩ "s" "t" false).2.2.1 rfl
      (by decide)⟩

/-- Once the sync.Once body has run, `Run` is the identity. -/
lemma runInput_fixed (s : InputLifecycle) (h : s.workerOnceDone = true) :
    runInput s = s := by
  simp [runInput, h]

/-- Any positive number of `Run` calls equals one `Run` call. -/
lemma runInput_iterate (n : Nat) (h : 1 ≤ n) :
    runInput^[n] newInputState = runInput newInputState := by
  induction n with
  | zero => omega
  | succ k ih =>
      rcases Nat.eq_or_lt_of_le h with h1 | h1
      · rw [← h1]
        simp
      · have hk : 1 ≤ k := by omega
        rw [Function.iterate_succ_apply', ih hk]
        exact runInput_fixed _ rfl

/-- C3: N invocations of Run (N at least 1) start exactly one worker
goroutine and create the metrics exactly once; any invocation on an
already-started input changes nothing. -/
theorem claim_C3_run_idempotent (n : Nat) (h : 1 ≤ n) :
    (runInput^[n] newInputState).workersStarted = 1
    ∧ (runInput^[n] newInputState).metricsCreatedCount = 1
    ∧ (∀ s : InputLifecycle, s.workerOnceDone = true → runInput s = s) := by
  rw [runInput_iterate n h]
  exact ⟨rfl, rfl, runInput_fixed⟩

/-- C3 witness: three Run calls still leave one worker and one metrics
object, and a fourth call on the started input is a no-op. -/
theorem claim_C3_run_idempotent_witness :
    (runInput^[3] newInputState).workersStarted = 1
    ∧ runInput (runInput newInputState) = runInput newInputState :=
  ⟨(claim_C3_run_idempotent 3 (by norm_num)).1,
   (claim_C3_run_idempotent 3 (by norm_num)).2.2 (runInput newInputState) rfl⟩

/-- C9: the metrics object exists only after the once-guarded body of Run
has executed, and Stop unconditionally invokes Close on the stored
reference; before any Run call that reference is nil. -/
theorem claim_C9_stop_before_run (n : Nat) (h : 1 ≤ n) :
    stopCloseTarget newInputState = none
    ∧ stopCloseTarget (runInput^[n] newInputState) = some newMetrics := by
  rw [runInput_iterate n h]
  exact ⟨rfl, rfl⟩

/-- C9 witness: at two Run calls the close target is the metrics object;
with no Run call it is nil. -/
theorem claim_C9_stop_before_run_witness :
    stopCloseTarget newInputState = none
    ∧ stopCloseTarget (runInput^[2] newInputState) = some newMetrics :=
  ⟨(claim_C9_stop_before_run 2 (by norm_num)).1,
   (claim_C9_stop_before_run 2 (by norm_num)).2⟩

/-! ## C4: invariants of the Stop/worker interleaving -/

/-- Ties the worker phase to the wait-group count and the Stopped status:
the wait group is released exactly by the dDone defer, and the status
update is the single defer instruction after it. -/
def phaseInv (s : LifeState) : Prop :=
  match s.worker with
  | .looping _ => s.wgCount = 1
  | .deferring rest =>
      (rest = [.dCancel, .dDone, .dSetStopped] ∧ s.wgCount = 1) ∨
      (rest = [.dDone, .dSetStopped] ∧ s.wgCount = 1) ∨
      (rest = [.dSetStopped] ∧ s.wgCount = 0) ∨
      (rest = [] ∧ s.wgCount = 0 ∧ s.statusStopped = true)
  | .exited => s.wgCount = 0 ∧ s.statusStopped = true

/-- The interleaving invariant: each passed Stop program point records its
effect (cancellation, drained wait group, closed metrics), plus the worker
phase bookkeeping. -/
def StopInv (s : LifeState) : Prop :=
  (1 ≤ s.stopPC → s.cancelled = true) ∧
  (2 ≤ s.stopPC → s.wgCount = 0) ∧
  (s.stopPC = 3 → s.metricsClosed = true) ∧
  phaseInv s

/-- The initial state satisfies the invariant. -/
lemma stopInv_init (atts : List Nat) : StopInv (lifeInit atts) := by
  simp [StopInv, lifeInit, phaseInv]

/-- The phase invariant only reads the worker phase, the wait-group count
and the Stopped flag. -/
lemma phaseInv_congr (w : WorkerPhase) (wg : Nat) (st : Bool)
    (c1 c2 mc1 mc2 : Bool) (d1 d2 pc1 pc2 : Nat) :
    phaseInv ⟨c1, wg, st, mc1, d1, w, pc1⟩ ↔
      phaseInv ⟨c2, wg, st, mc2, d2, w, pc2⟩ := by
  cases w <;> exact Iff.rfl

/-- A worker step preserves the invariant. -/
lemma stopInv_workerStep (s : LifeState) (h : StopInv s) :
    StopInv (workerStep s) := by
  obtain ⟨hc, hw, hm, hp⟩ := h
  cases s with
  | mk c wg st mc d w pc =>
    cases w with
    | looping atts =>
        simp only [phaseInv] at hp
        cases c with
        | true =>
            have e : workerStep ⟨true, wg, st, mc, d, .looping atts, pc⟩ =
                ⟨true, wg, st, mc, d,
                 .deferring [.dCancel, .dDone, .dSetStopped], pc⟩ := rfl
            rw [e]
            exact ⟨fun _ => rfl, hw, hm, Or.inl ⟨rfl, hp⟩⟩
        | false =>
            cases atts with
            | nil => exact ⟨hc, hw, hm, hp⟩
            | cons a rest =>
                have e : workerStep ⟨false, wg, st, mc, d,
                    .looping (a :: rest), pc⟩ =
                    ⟨false, wg, st, mc, d + a, .looping rest, pc⟩ := rfl
                rw [e]
                exact ⟨hc, hw, hm, hp⟩
    | deferring rest =>
        simp only [phaseInv] at hp
        cases rest with
        | nil =>
            have e : workerStep ⟨c, wg, st, mc, d, .deferring [], pc⟩ =
                ⟨c, wg, st, mc, d, .exited, pc⟩ := rfl
            rw [e]
            rcases hp with ⟨h1, _⟩ | ⟨h1, _⟩ | ⟨h1, _⟩ | ⟨_, h2, h3⟩
            · exact absurd h1 (by simp)
            · exact absurd h1 (by simp)
            · exact absurd h1 (by simp)
            · exact ⟨hc, hw, hm, h2, h3⟩
        | cons i irest =>
            cases i with
            | dCancel =>
                have e : workerStep ⟨c, wg, st, mc, d,
                    .deferring (.dCancel :: irest), pc⟩ =
                    ⟨true, wg, st, mc, d, .deferring irest, pc⟩ := rfl
                rw [e]
                rcases hp with ⟨h1, h2⟩ | ⟨h1, _⟩ | ⟨h1, _⟩ | ⟨h1, _⟩
                · have hr : irest = [.dDone, .dSetStopped] := by
                    injection h1 with h1h h1t
                  exact ⟨fun _ => rfl, hw, hm, Or.inr (Or.inl ⟨hr, h2⟩)⟩
                · exact absurd h1 (by simp)
                · exact absurd h1 (by simp)
                · exact absurd h1 (by simp)
            | dDone =>
                have e : workerStep ⟨c, wg, st, mc, d,
                    .deferring (.dDone :: irest), pc⟩ =
                    ⟨c, wg - 1, st, mc, d, .deferring irest, pc⟩ := rfl
                rw [e]
                rcases hp with ⟨h1, _⟩ | ⟨h1, h2⟩ | ⟨h1, _⟩ | ⟨h1, _⟩
                · exact absurd h1 (by simp)
                · have hr : irest = [.dSetStopped] := by
                    injection h1 with h1h h1t
                  exact ⟨hc, fun h3 => by show wg - 1 = 0; omega, hm,
                    Or.inr (Or.inr (Or.inl ⟨hr, by show wg - 1 = 0; omega⟩))⟩
                · exact absurd h1 (by simp)
                · exact absurd h1 (by simp)
            | dSetStopped =>
                have e : workerStep ⟨c, wg, st, mc, d,
                    .deferring (.dSetStopped :: irest), pc⟩ =
                    ⟨c, wg, true, mc, d, .deferring irest, pc⟩ := rfl
                rw [e]
                rcases hp with ⟨h1, _⟩ | ⟨h1, _⟩ | ⟨h1, h2⟩ | ⟨h1, _⟩
                · exact absurd h1 (by simp)
                · exact absurd h1 (by simp)
                · have hr : irest = [] := by injection h1 with h1h h1t
                  exact ⟨hc, hw, hm, Or.inr (Or.inr (Or.inr ⟨hr, h2, rfl⟩))⟩
                · exact absurd h1 (by simp)
    | exited => exact ⟨hc, hw, hm, hp⟩

/-- A Stop-caller step preserves the invariant. -/
lemma stopInv_stopStep (s : LifeState) (h : StopInv s) :
    StopInv (stopStep s) := by
  obtain ⟨hc, hw, hm, hp⟩ := h
  cases s with
  | mk c wg st mc d w pc =>
    rcases pc with _ | _ | _ | pc
    · have e : stopStep ⟨c, wg, st, mc, d, w, 0⟩ =
          ⟨true, wg, st, mc, d, w, 1⟩ := rfl
      rw [e]
      exact ⟨fun _ => rfl,
        fun h2 => absurd (show 2 ≤ 1 from h2) (by decide),
        fun h3 => absurd (show 1 = 3 from h3) (by decide),
        (phaseInv_congr w wg st c true mc mc d d 0 1).mp hp⟩
    · by_cases hwg : wg = 0
      · have e : stopStep ⟨c, wg, st, mc, d, w, 1⟩ =
            ⟨c, wg, st, mc, d, w, 2⟩ := by
          simp [stopStep, hwg]
        rw [e]
        exact ⟨fun _ => hc (Nat.le_refl 1), fun _ => hwg,
          fun h3 => absurd (show 2 = 3 from h3) (by decide),
          (phaseInv_congr w wg st c c mc mc d d 1 2).mp hp⟩
      · have e : stopStep ⟨c, wg, st, mc, d, w, 1⟩ =
            ⟨c, wg, st, mc, d, w, 1⟩ := by
          simp [stopStep, hwg]
        rw [e]
        exact ⟨hc, hw, hm, hp⟩
    · have e : stopStep ⟨c, wg, st, mc, d, w, 2⟩ =
          ⟨c, wg, st, true, d, w, 3⟩ := rfl
      rw [e]
      exact ⟨fun _ => hc (show 1 ≤ 2 by decide), fun _ => hw (Nat.le_refl 2),
        fun _ => rfl,
        (phaseInv_congr w wg st c c mc true d d 2 3).mp hp⟩
    · have e : stopStep ⟨c, wg, st, mc, d, w, pc + 3⟩ =
          ⟨c, wg, st, mc, d, w, pc + 3⟩ := rfl
      rw [e]
      exact ⟨hc, hw, hm, hp⟩

/-- Any scheduled step preserves the invariant. -/
lemma stopInv_sysStep (s : LifeState) (h : StopInv s) (who : Bool) :
    StopInv (sysStep s who) := by
  cases who
  · exact stopInv_stopStep s h
  · exact stopInv_workerStep s h

/-- Whole schedules preserve the invariant. -/
lemma stopInv_sysRun (sched : List Bool) (s : LifeState) (h : StopInv s) :
    StopInv (sysRun s sched) := by
  induction sched generalizing s with
  | nil => exact h
  | cons b rest ih => exact ih _ (stopInv_sysStep s h b)

/-- Cancellation is irrevocable and freezes delivery growth. -/
lemma cancelled_sysStep (s : LifeState) (h : s.cancelled = true) (who : Bool) :
    (sysStep s who).cancelled = true ∧ (sysStep s who).deliveries = s.deliveries := by
  cases s with
  | mk c wg st mc d w pc =>
    subst h
    cases who
    · rcases pc with _ | _ | _ | pc <;> simp [sysStep, stopStep]
      by_cases hwg : wg = 0 <;> simp [hwg]
    · cases w with
      | looping atts => simp [sysStep, workerStep]
      | deferring rest =>
          cases rest with
          | nil => simp [sysStep, workerStep]
          | cons i irest => cases i <;> simp [sysStep, workerStep]
      | exited => simp [sysStep, workerStep]

/-- After cancellation no schedule ever raises the delivery count. -/
lemma deliveries_frozen (sched : List Bool) (s : LifeState)
    (h : s.cancelled = true) :
    (sysRun s sched).deliveries = s.deliveries := by
  induction sched generalizing s with
  | nil => rfl
  | cons b rest ih =>
      have h2 := cancelled_sysStep s h b
      calc (sysRun (sysStep s b) rest).deliveries
          = (sysStep s b).deliveries := ih _ h2.1
        _ = s.deliveries := h2.2

/-- With the wait group drained, the Stopped status either is already set
or is set by the worker's very next step. -/
lemma phaseInv_status (s : LifeState) (hp : phaseInv s) (hwg : s.wgCount = 0) :
    s.statusStopped = true ∨ (workerStep s).statusStopped = true := by
  cases s with
  | mk c wg st mc d w pc =>
    have hwg2 : wg = 0 := hwg
    cases w with
    | looping atts =>
        have hp2 : wg = 1 := hp
        omega
    | deferring rest =>
        simp only [phaseInv] at hp
        rcases hp with ⟨h1, h2⟩ | ⟨h1, h2⟩ | ⟨h1, h2⟩ | ⟨h1, h2, hst⟩
        · exact absurd h2 (by omega)
        · exact absurd h2 (by omega)
        · subst h1
          right
          rfl
        · left
          exact hst
    | exited => left; exact hp.2

/-- A completed `Stop` makes a repeated `Stop` a no-op. -/
lemma stopAgain_fixed (s : LifeState) (h1 : s.cancelled = true)
    (h2 : s.metricsClosed = true) : stopAgain s = s := by
  cases s with
  | mk c wg st mc d w pc =>
    have hc2 : c = true := h1
    have hm2 : mc = true := h2
    subst hc2
    subst hm2
    rfl

/-- C4 counterexample: the claim that the Status Reporter has been set to
Stopped once Stop() returns fails on a legal interleaving — the worker
releases the wait group (unblocking Stop) one deferred instruction before
its Stopped status update, so Stop can return (program counter 3, metrics
closed) while the status is still not Stopped. -/
theorem claim_C4_counterexample :
    (sysRun (lifeInit []) [false, true, true, true, false, false]).stopPC = 3
    ∧ (sysRun (lifeInit [])
        [false, true, true, true, false, false]).metricsClosed = true
    ∧ (sysRun (lifeInit [])
        [false, true, true, true, false, false]).statusStopped = false := by
  decide

/-- C4 (amended): once Stop() has returned, the outer scope is cancelled,
the wait group is drained, the metrics are closed, no schedule can ever
deliver another event, a repeated Stop observes the same completed state,
and the Stopped status either is already set or is the worker's next
step — the claim's only failure is that the status update can land after
Stop returns. -/
theorem claim_C4_stop_amended (atts : List Nat) (sched : List Bool)
    (h3 : (sysRun (lifeInit atts) sched).stopPC = 3) :
    (sysRun (lifeInit atts) sched).cancelled = true
    ∧ (sysRun (lifeInit atts) sched).wgCount = 0
    ∧ (sysRun (lifeInit atts) sched).metricsClosed = true
    ∧ (∀ sched2 : List Bool,
        (sysRun (sysRun (lifeInit atts) sched) sched2).deliveries
          = (sysRun (lifeInit atts) sched).deliveries)
    ∧ ((sysRun (lifeInit atts) sched).statusStopped = true
        ∨ (workerStep (sysRun (lifeInit atts) sched)).statusStopped = true)
    ∧ stopAgain (sysRun (lifeInit atts) sched) = sysRun (lifeInit atts) sched := by
  obtain ⟨hc, hw, hm, hp⟩ := stopInv_sysRun sched (lifeInit atts) (stopInv_init atts)
  have hcan : (sysRun (lifeInit atts) sched).cancelled = true := hc (by omega)
  have hwg : (sysRun (lifeInit atts) sched).wgCount = 0 := hw (by omega)
  have hmc := hm h3
  exact ⟨hcan, hwg, hmc, fun sched2 => deliveries_frozen sched2 _ hcan,
    phaseInv_status _ hp hwg, stopAgain_fixed _ hcan hmc⟩

/-- C4 witness: the amended theorem on the counterexample interleaving. -/
theorem claim_C4_stop_amended_witness :
    (sysRun (lifeInit []) [false, true, true, true, false, false]).cancelled = true
    ∧ (sysRun (lifeInit []) [false, true, true, true, false, false]).wgCount = 0
    ∧ (sysRun (lifeInit [])
        [false, true, true, true, false, false]).metricsClosed = true :=
  ⟨(claim_C4_stop_amended [] [false, true, true, true, false, false] (by decide)).1,
   (claim_C4_stop_amended [] [false, true, true, true, false, false] (by decide)).2.1,
   (claim_C4_stop_amended [] [false, true, true, true, false, false]
      (by decide)).2.2.1⟩

/-! ## C10: the mutually-exclusive-required-fields check -/

/-- How many configuration fields match a candidate name; this is the
spec-side reading of the listed names occurring among the configuration
fields. -/
def occursCount (fields cfgFields : List String) : Nat :=
  (cfgFields.filter (fun f => decide (f ∈ fields))).length

/-- A string of length zero is the empty string. -/
lemma string_of_length_zero (s : String) (h : s.length = 0) : s = "" := by
  cases s with
  | mk data =>
      have hd : data = [] := List.length_eq_zero.mp h
      subst hd
      rfl

/-- The inner loop passes through when the config field matches no
candidate. -/
lemma mefInner_not_mem (field ff : String) (l : List String)
    (h : field ∉ l) : mefInner field ff l = .ok ff := by
  induction l with
  | nil => rfl
  | cons f fs ih =>
      have hne : field ≠ f := fun he => h (he ▸ List.mem_cons_self f fs)
      have h2 : field ∉ fs := fun hm => h (List.mem_cons_of_mem _ hm)
      simp only [mefInner, if_neg hne]
      exact ih h2

/-- With the sentinel unset, a matching config field is recorded and the
loop completes. -/
lemma mefInner_mem_empty (field : String) (l : List String) (hnd : l.Nodup)
    (h : field ∈ l) : mefInner field "" l = .ok field := by
  induction l with
  | nil => cases h
  | cons f fs ih =>
      by_cases he : field = f
      · subst he
        have hnot : field ∉ fs := (List.nodup_cons.mp hnd).1
        simp only [mefInner, if_pos rfl]
        have hlen : ("" : String).length = 0 := rfl
        rw [if_pos hlen]
        exact mefInner_not_mem field field fs hnot
      · have h2 : field ∈ fs := by
          rcases List.mem_cons.mp h with h3 | h3
          · exact absurd h3 he
          · exact h3
        simp only [mefInner, if_neg he]
        exact ih (List.nodup_cons.mp hnd).2 h2

/-- With the sentinel already set, a matching config field raises the
mutual-exclusion error against it. -/
lemma mefInner_mem_found (field ff : String) (l : List String)
    (hff : ¬ff.length = 0) (h : field ∈ l) :
    mefInner field ff l = .error (.mutuallyExclusive ff field) := by
  induction l with
  | nil => cases h
  | cons f fs ih =>
      by_cases he : field = f
      · subst he
        simp [mefInner, hff]
      · have h2 : field ∈ fs := by
          rcases List.mem_cons.mp h with h3 | h3
          · exact absurd h3 he
          · exact h3
        simp only [mefInner, if_neg he]
        exact ih h2

/-- The outer loop with the sentinel set: the run succeeds exactly when no
further config field matches, and otherwise errors against the first
further match. -/
lemma mefOuter_found (fields : List String) (cfg : List String) (ff : String)
    (hff : ¬ff.length = 0) :
    mefOuter fields ff cfg =
      (match cfg.filter (fun f => decide (f ∈ fields)) with
        | [] => .ok ff
        | a :: _ => .error (.mutuallyExclusive ff a)) := by
  induction cfg with
  | nil => rfl
  | cons c cs ih =>
      by_cases hc : c ∈ fields
      · have hin := mefInner_mem_found c ff fields hff hc
        simp [mefOuter, hin, List.filter_cons, hc]
      · have hin := mefInner_not_mem c ff fields hc
        simp [mefOuter, hin, List.filter_cons, hc]
        exact ih

/-- The outer loop from the unset sentinel: success with no match leaves
the sentinel empty, exactly one match returns it, two or more matches
error against the first two. -/
lemma mefOuter_empty (fields : List String) (hnd : fields.Nodup)
    (hne : "" ∉ fields) (cfg : List String) :
    mefOuter fields "" cfg =
      (match cfg.filter (fun f => decide (f ∈ fields)) with
        | [] => .ok ""
        | [a] => .ok a
        | a :: b :: _ => .error (.mutuallyExclusive a b)) := by
  induction cfg with
  | nil => rfl
  | cons c cs ih =>
      by_cases hc : c ∈ fields
      · have hin := mefInner_mem_empty c fields hnd hc
        have hcne : ¬c.length = 0 := by
          intro h0
          exact hne (string_of_length_zero c h0 ▸ hc)
        simp [mefOuter, hin, List.filter_cons, hc]
        rw [mefOuter_found fields cs c hcne]
        cases cs.filter (fun f => decide (f ∈ fields)) with
        | nil => rfl
        | cons a rest => rfl
      · have hin := mefInner_not_mem c "" fields hc
        simp [mefOuter, hin, List.filter_cons, hc]
        exact ih

/-- C10 counterexample: with the empty string as the single candidate
field name, a configuration containing exactly that field still fails the
check (Go uses the empty string as the unset sentinel for foundField), so
nil-iff-exactly-one fails as stated. -/
theorem claim_C10_counterexample :
    occursCount [""] [""] = 1
    ∧ mutuallyExclusiveRequiredFields [""] [""]
        = some (.missingOption [""]) := by
  constructor
  · rfl
  · rfl

/-- C10 (amended): for distinct non-empty candidate field names, the check
returns nil iff exactly one candidate occurs among the configuration
fields; with two or more occurrences it errors naming the first two
matching config fields; with none it errors listing all candidates. -/
theorem claim_C10_mutually_exclusive (fields cfgFields : List String)
    (hnd : fields.Nodup) (hne : "" ∉ fields) :
    (mutuallyExclusiveRequiredFields fields cfgFields = none
      ↔ occursCount fields cfgFields = 1)
    ∧ (occursCount fields cfgFields = 0 →
        mutuallyExclusiveRequiredFields fields cfgFields
          = some (.missingOption fields))
    ∧ (∀ a b rest,
        cfgFields.filter (fun f => decide (f ∈ fields)) = a :: b :: rest →
        mutuallyExclusiveRequiredFields fields cfgFields
          = some (.mutuallyExclusive a b)) := by
  unfold mutuallyExclusiveRequiredFields occursCount
  rw [mefOuter_empty fields hnd hne cfgFields]
  rcases hfil : cfgFields.filter (fun f => decide (f ∈ fields)) with
    _ | ⟨a, _ | ⟨b, rest⟩⟩
  · refine ⟨by simp, fun _ => by simp, fun a b rest h2 => ?_⟩
    simp at h2
  · have ha : a ∈ fields := by
      have := List.of_mem_filter (hfil ▸ List.mem_cons_self a [])
      exact of_decide_eq_true this
    have hane : ¬a.length = 0 := fun h0 =>
      hne (string_of_length_zero a h0 ▸ ha)
    refine ⟨by simp [hane], fun h0 => by simp at h0, fun x y rest h2 => ?_⟩
    simp at h2
  · refine ⟨by simp, fun h0 => by simp at h0, fun x y rest2 h2 => ?_⟩
    injection h2 with hx h3
    injection h3 with hy h4
    subst hx
    subst hy
    rfl

/-- C10 witness: a single occurrence passes, no occurrence reports the
candidate list, a double occurrence names the first two matches. -/
theorem claim_C10_mutually_exclusive_witness :
    mutuallyExclusiveRequiredFields ["a", "b"] ["x", "a"] = none
    ∧ mutuallyExclusiveRequiredFields ["a", "b"] ["x", "y"]
        = some (.missingOption ["a", "b"])
    ∧ mutuallyExclusiveRequiredFields ["a", "b"] ["b", "x", "a"]
        = some (.mutuallyExclusive "b" "a") :=
  ⟨(claim_C10_mutually_exclusive ["a", "b"] ["x", "a"] (by decide)
      (by decide)).1.mpr (by decide),
   (claim_C10_mutually_exclusive ["a", "b"] ["x", "y"] (by decide)
      (by decide)).2.1 (by decide),
   (claim_C10_mutually_exclusive ["a", "b"] ["b", "x", "a"] (by decide)
      (by decide)).2.2 "b" "a" [] (by decide)⟩

end BeatsChecks
